import Mathlib

/-!
Verification of the speech-playback controller of the word-pronunciation
practice app (SpeechController and its UI-level retry wrappers), as a shallow
embedding in Lean 4.  Definitions are translated from the TypeScript source;
line references point into the source files.
-/

set_option autoImplicit false

namespace Speech

/-- The SpeechError enum (src/types, part_016 lines 63-68). -/
inductive SpeechError where
  | NOT_SUPPORTED
  | NO_VOICES
  | SYNTHESIS_FAILED
  | INTERRUPTED
  deriving DecidableEq, Repr

/-- A browser SpeechSynthesisVoice, restricted to the fields the controller
reads: `name`, `lang` and `localService`. -/
structure Voice where
  name : String
  lang : String
  localService : Bool
  deriving DecidableEq, Repr

/-- SpeechSettings (src/types, part_016 lines 38-43).  The controller performs
no arithmetic on `rate`, `pitch`, `volume`; the JS numbers are embedded as
rationals. -/
structure SpeechSettings where
  rate : Rat
  pitch : Rat
  volume : Rat
  voice : String
  deriving DecidableEq, Repr

/-- A `Partial<SpeechSettings>` value: each field optionally present. -/
structure PartialSpeechSettings where
  rate : Option Rat := none
  pitch : Option Rat := none
  volume : Option Rat := none
  voice : Option String := none
  deriving DecidableEq, Repr

/-- The constructor defaults (part_014 lines 30-36): rate 1, pitch 1,
volume 1, empty voice, before the caller-supplied overrides are spread in. -/
def defaultSettings : SpeechSettings :=
  { rate := 1, pitch := 1, volume := 1, voice := "" }

/-- The JS object spread `{...this.settings, ...newSettings}` in
`updateSettings` (part_014 line 232). -/
def mergeSettings (s : SpeechSettings) (p : PartialSpeechSettings) : SpeechSettings :=
  { rate := p.rate.getD s.rate
    pitch := p.pitch.getD s.pitch
    volume := p.volume.getD s.volume
    voice := p.voice.getD s.voice }

/-- Structural embedding of the JS `String.prototype.startsWith` used at
part_014 lines 74 and 81. -/
def strStartsWith (s pre : String) : Bool :=
  pre.data.isPrefixOf s.data

/-- The filter predicate of part_014 lines 73-75: an English local-service
voice. -/
def isLocalEnglish (v : Voice) : Bool :=
  strStartsWith v.lang "en" && v.localService

/-- The predicate of part_014 line 81: any English voice. -/
def isEnglish (v : Voice) : Bool :=
  strStartsWith v.lang "en"

/-- The voice `selectOptimalVoice` (part_014 lines 71-86) would pick, as an
option: the head of the filtered local-English list, else the first English
voice, else `none` (the method assigns nothing in that case). -/
def selectOptimalChoice (voices : List Voice) : Option Voice :=
  match voices.filter isLocalEnglish with
  | v :: _ => some v
  | [] => voices.find? isEnglish

/-- The value `selectOptimalVoice` (part_014 lines 71-86) leaves in
`settings.voice`, given the catalog and the previous value: when no English
voice exists, neither assignment runs and the previous value is kept. -/
def selectOptimalVoice (voices : List Voice) (current : String) : String :=
  match selectOptimalChoice voices with
  | some v => v.name
  | none => current

/-- The method `updateSettings` (part_014 lines 231-241): spread-merge the
partial into the settings, then, when the partial carries a truthy (present
and non-empty) voice that is not in the catalog, run `selectOptimalVoice`. -/
def updateSettings (voices : List Voice) (s : SpeechSettings)
    (p : PartialSpeechSettings) : SpeechSettings :=
  let merged := mergeSettings s p
  match p.voice with
  | some v =>
      if (v != "") && !(voices.any (fun w => w.name == v)) then
        { merged with voice := selectOptimalVoice voices merged.voice }
      else
        merged
  | none => merged

/-- Terminal outcome of the pending result (the promise) returned by
`speak`. -/
inductive Outcome where
  | resolved
  | rejected (e : SpeechError)
  deriving DecidableEq, Repr

/-- The per-request mutable state of the promise body of `speak`
(part_014 lines 108-202): the `hasStarted` and `hasEnded` flags
(lines 128-129), whether the 3-second watchdog timer has been cleared by a
`clearTimeout` call, and the settle-once promise result. -/
structure RequestState where
  hasStarted : Bool := false
  hasEnded : Bool := false
  cleared3s : Bool := false
  result : Option Outcome := none
  deriving DecidableEq, Repr

/-- Promise settle-once semantics: the first `resolve`/`reject` wins, later
ones are ignored. -/
def RequestState.settle (st : RequestState) (o : Outcome) : RequestState :=
  match st.result with
  | some _ => st
  | none => { st with result := some o }

/-- The events that can reach one submitted request: the engine callbacks
`onstart`, `onend`, `onerror`, the 3-second watchdog timer firing, and the
1-second fallback check observing the engine's global `speaking` and
`pending` flags. -/
inductive SpeakEvent where
  | start
  | ended
  | error
  | fire3s
  | fire1s (speaking pending : Bool)
  deriving DecidableEq, Repr

/-- One event acting on the request state, exactly as the handlers of
part_014 install them:
* `onstart` (lines 141-147) sets `hasStarted` and clears the 3s timer;
* `onend` (lines 149-156) sets `hasEnded`, clears the 3s timer, resolves;
* `onerror` (lines 158-164) sets `hasEnded`, clears the 3s timer and rejects
  after `handleError(SYNTHESIS_FAILED)`;
* the 3s timer body (lines 132-138) rejects (after
  `handleError(SYNTHESIS_FAILED)`) when neither started nor ended; it runs
  only if not yet cleared;
* the 1s fallback check (lines 177-187) clears the 3s timer and rejects
  (after `handleError(SYNTHESIS_FAILED)`) when neither started nor ended and
  the engine reports neither `speaking` nor `pending`. -/
def speakStep (st : RequestState) (e : SpeakEvent) : RequestState :=
  match e with
  | .start => { st with hasStarted := true, cleared3s := true }
  | .ended => ({ st with hasEnded := true, cleared3s := true }).settle .resolved
  | .error =>
      ({ st with hasEnded := true, cleared3s := true }).settle
        (.rejected .SYNTHESIS_FAILED)
  | .fire3s =>
      if !st.cleared3s && !st.hasStarted && !st.hasEnded then
        st.settle (.rejected .SYNTHESIS_FAILED)
      else st
  | .fire1s sp pe =>
      if !st.hasStarted && !st.hasEnded && !sp && !pe then
        ({ st with cleared3s := true }).settle (.rejected .SYNTHESIS_FAILED)
      else st

/-- The promise state after a sequence of events has reached one submitted
request. -/
def runSpeak (events : List SpeakEvent) : RequestState :=
  events.foldl speakStep {}

/-- Event `e`, arriving at request state `st`, is one of the three rejecting
situations of the claim: an engine error event, the 3-second start timeout
expiring with no start observed, or the 1-second fallback check finding no
start observed and the engine neither speaking nor pending. -/
def RejectingAt (st : RequestState) (e : SpeakEvent) : Prop :=
  e = .error ∨
  (e = .fire3s ∧ st.cleared3s = false ∧ st.hasStarted = false ∧
    st.hasEnded = false) ∨
  (∃ sp pe, e = .fire1s sp pe ∧ st.hasStarted = false ∧ st.hasEnded = false ∧
    sp = false ∧ pe = false)

/-- The element `d` is the first element of `l` satisfying `p`, in
enumeration order. -/
def FirstMatch (p : Voice → Bool) (l : List Voice) (d : Voice) : Prop :=
  ∃ l₁ l₂, l = l₁ ++ d :: l₂ ∧ p d = true ∧ ∀ x ∈ l₁, p x = false

/-- The flags of the global SpeechSynthesis engine that the controller
reads: `speaking`, `pending`, `paused`. -/
structure EngineFlags where
  speaking : Bool
  pending : Bool
  paused : Bool
  deriving DecidableEq, Repr

/-- The calls the controller issues to the engine in `stop` and `speak`. -/
inductive EngineCall where
  | cancel
  | submit (text : String)
  deriving DecidableEq, Repr

/-- Platform semantics of `synthesis.cancel()`: the utterance queue is
dropped and every flag clears. -/
def EngineFlags.cancelAll : EngineFlags := ⟨false, false, false⟩

/-- The method `stop` (part_014 lines 217-221): calls `synthesis.cancel()`
exactly when the engine is `speaking` or `pending`.  Returns the flags
afterwards and the engine calls issued; the method is a total function of
the flags — it cannot throw. -/
def stopRun (e : EngineFlags) : EngineFlags × List EngineCall :=
  if e.speaking || e.pending then (EngineFlags.cancelAll, [.cancel]) else (e, [])

/-- Controller-surface Idle state: the queries `isSpeaking` (part_014
lines 223-225) and `isPaused` (lines 227-229) both report false. -/
def EngineFlags.isIdle (e : EngineFlags) : Prop :=
  e.speaking = false ∧ e.paused = false

/-- Embedding of the JS falsy-trim guard at part_014 line 100: `text.trim()`
is falsy exactly when every character of `text` is whitespace. -/
def trimmedEmpty (text : String) : Bool :=
  text.data.all Char.isWhitespace

/-- The method `speak` (part_014 lines 99-203), abstracted to the engine
calls it issues and whether it resolves immediately: with empty-trimmed text
it returns before any engine interaction (lines 100-102); otherwise `stop()`
runs synchronously (line 105) and the utterance is submitted after the 50ms
and 10ms delays (lines 106 and 172-174). -/
def speakRun (e : EngineFlags) (text : String) : List EngineCall × Bool :=
  if trimmedEmpty text then ([], true)
  else ((stopRun e).2 ++ [.submit text], false)

/-- The engine flags after a trace of controller calls: cancel clears
everything; a submitted utterance starts at once when the engine is free and
queues as pending otherwise. -/
def applyCalls (e : EngineFlags) : List EngineCall → EngineFlags
  | [] => e
  | .cancel :: rest => applyCalls EngineFlags.cancelAll rest
  | .submit _ :: rest =>
      applyCalls
        (if e.speaking then { e with pending := true }
          else { e with speaking := true }) rest

/-- One `loadVoices` run (part_014 lines 47-53): the `voices` field is set to
the snapshot unconditionally; when the snapshot is non-empty,
`selectOptimalVoice` updates the settings voice. -/
def loadVoicesStep : List Voice × String → List Voice → List Voice × String
  | (_, cur), snap =>
      if snap.isEmpty then (snap, cur) else (snap, selectOptimalVoice snap cur)

/-- State of voice initialization at the 1-second fallback timeout. -/
structure InitResult where
  voices : List Voice
  settingsVoice : String
  noVoicesReported : Bool
  deriving DecidableEq, Repr

/-- The method `initializeVoices` (part_014 lines 45-69): `loadVoices` runs
immediately and again on each `voiceschanged` notification; `loads` lists
the `getVoices()` snapshots so delivered before the fallback timer.  At the
1-second fallback timeout, exactly when the voice list is still empty,
`handleError(NO_VOICES)` reports through the registered `onSpeechError`
callback (part_014 lines 92-97) — nothing is thrown. -/
def initializeVoices (initialVoice : String)
    (loads : List (List Voice)) : InitResult :=
  let r := loads.foldl loadVoicesStep ([], initialVoice)
  { voices := r.1, settingsVoice := r.2, noVoicesReported := r.1.isEmpty }

/-- An utterance as configured by `speak` (part_014 lines 110-126): prosody
copied from the settings; the voice object resolved from the catalog only
when the settings voice is truthy (non-empty) and found; language fixed to
en-US. -/
structure Utterance where
  text : String
  rate : Rat
  pitch : Rat
  volume : Rat
  voice : Option Voice
  lang : String
  deriving DecidableEq, Repr

/-- The utterance construction of `speak` (part_014 lines 110-126). -/
def buildUtterance (settings : SpeechSettings) (voices : List Voice)
    (text : String) : Utterance :=
  { text := text
    rate := settings.rate
    pitch := settings.pitch
    volume := settings.volume
    voice :=
      if settings.voice != "" then
        voices.find? (fun v => v.name == settings.voice)
      else none
    lang := "en-US" }

/-- Result of the UI retry wrapper around speak: the texts submitted to the
engine (one per speak call), whether the overall run succeeded, and the
delays awaited between attempts. -/
structure RetryResult where
  submissions : List String
  ok : Bool
  delays : List Nat
  deriving DecidableEq, Repr

/-- The recursive attemptSpeak of ReviewSession.tsx lines 60-77 (identical in
QuestionCard.tsx lines 28-45): `success k` gives the outcome of the k-th
speak submission (0-based).  The source retries while
`retryCount < maxRetries` after a 200ms pause; the remaining retry budget
`maxRetries - retryCount` is the structural argument here, alongside the
current attempt index `k`, and the final `throw error` of the exhausted case
is carried as `ok := false`. -/
def attemptSpeak (text : String) (success : Nat → Bool) :
    Nat → Nat → RetryResult
  | k, 0 => if success k then ⟨[text], true, []⟩ else ⟨[text], false, []⟩
  | k, left + 1 =>
      if success k then ⟨[text], true, []⟩
      else
        let r := attemptSpeak text success (k + 1) left
        ⟨text :: r.submissions, r.ok, 200 :: r.delays⟩

/-- The handler handleSpeak of ReviewSession.tsx lines 55-86 (identically
handlePlayPronunciation, QuestionCard.tsx lines 25-54): runs attemptSpeak
from retryCount 0; the outer try/catch (lines 79-85) only logs the final
failure, so the handler always completes without throwing and without
blocking further interaction — the failure stays in the `ok` field. -/
def handleSpeak (text : String) (success : Nat → Bool)
    (maxRetries : Nat) : RetryResult :=
  attemptSpeak text success 0 maxRetries

/-- A speak call in the supersession scenario: issue time (ms), text, and
the engine playback duration of its utterance. -/
structure SimCall where
  time : Nat
  text : String
  dur : Nat
  deriving DecidableEq, Repr

/-- Timed tasks of the browser event loop and engine while speak calls run:
the synchronous prefix of speak at its call time (part_014 lines 99-106),
the promise executor after the 50ms await (line 106), the 10ms-delayed
synthesis.speak (lines 172-174), the engine finishing an utterance, the
3-second watchdog (lines 132-138) and the 1-second fallback check
(lines 177-187). -/
inductive SimTask where
  | call (i : Nat)
  | exec (i : Nat)
  | submit (i : Nat)
  | finish (i : Nat)
  | timeout3 (i : Nat)
  | check1 (i : Nat)
  deriving DecidableEq, Repr

/-- Global simulation state: pending timed tasks in scheduling order, the
engine utterance queue (the head is playing), each request's promise state,
the engine-call trace, and the largest number of simultaneously live
(submitted, unfinished, uncancelled) utterances observed at the engine. -/
structure SimState where
  agenda : List (Nat × SimTask)
  queue : List Nat
  requests : List RequestState
  trace : List EngineCall
  maxLive : Nat
  deriving DecidableEq, Repr

/-- Select the earliest pending task, ties resolved in favour of the
earliest-scheduled; returns it with the remaining agenda in order. -/
def pickMinAux (best : Nat × SimTask) :
    List (Nat × SimTask) → (Nat × SimTask) × List (Nat × SimTask)
  | [] => (best, [])
  | x :: xs =>
      if x.1 < best.1 then
        let r := pickMinAux x xs
        (r.1, best :: r.2)
      else
        let r := pickMinAux best xs
        (r.1, x :: r.2)

/-- Deliver one promise-level event to request `i`. -/
def deliver (st : SimState) (i : Nat) (e : SpeakEvent) : SimState :=
  { st with requests := st.requests.set i (speakStep (st.requests.getD i {}) e) }

/-- The engine starts playing utterance `i` at time `t`: the onstart
callback fires and the utterance will finish after its duration. -/
def startPlay (calls : List SimCall) (t : Nat) (i : Nat) (st : SimState) :
    SimState :=
  let st1 := deliver st i .start
  { st1 with
      agenda := st1.agenda ++ [(t + (calls.getD i ⟨0, "", 0⟩).dur, .finish i)] }

/-- One step of the event loop, processing the earliest pending task.
* call i: the empty-trim guard resolves immediately (lines 100-102);
  otherwise stop() cancels exactly when the engine is speaking or pending
  (lines 105, 217-221) and the executor is scheduled 50ms later (line 106).
  Cancellation drops the whole engine queue and delivers no event to the
  cancelled requests, whose promises stay pending.
* exec i: arms the 3-second watchdog (line 132) and schedules the submit
  10ms later (line 172).
* submit i: the utterance reaches the engine; it starts at once when the
  engine is free and queues otherwise; the 1-second fallback check is
  scheduled (line 177).
* finish i: the engine ends utterance i if it is still current (onend), and
  the next queued utterance starts; a finish for a cancelled utterance is
  stale and ignored.
* timeout3 and check1 deliver the watchdog events of speakStep. -/
def simStep (calls : List SimCall) (st : SimState) : SimState :=
  match st.agenda with
  | [] => st
  | a :: rest =>
      let p := pickMinAux a rest
      let t := p.1.1
      let st0 := { st with agenda := p.2 }
      match p.1.2 with
      | .call i =>
          let c := calls.getD i ⟨0, "", 0⟩
          if trimmedEmpty c.text then
            { st0 with
                requests :=
                  st0.requests.set i
                    ((st0.requests.getD i {}).settle .resolved) }
          else
            let st1 :=
              if st0.queue.isEmpty then st0
              else { st0 with trace := st0.trace ++ [.cancel], queue := [] }
            { st1 with agenda := st1.agenda ++ [(t + 50, .exec i)] }
      | .exec i =>
          { st0 with
              agenda := st0.agenda ++ [(t + 3000, .timeout3 i), (t + 10, .submit i)] }
      | .submit i =>
          let c := calls.getD i ⟨0, "", 0⟩
          let wasEmpty := st0.queue.isEmpty
          let st1 :=
            { st0 with
                trace := st0.trace ++ [EngineCall.submit c.text]
                queue := st0.queue ++ [i] }
          let st2 := { st1 with maxLive := max st1.maxLive st1.queue.length }
          let st3 := if wasEmpty then startPlay calls t i st2 else st2
          { st3 with agenda := st3.agenda ++ [(t + 1000, .check1 i)] }
      | .finish i =>
          if st0.queue.head? = some i then
            let st1 := deliver st0 i .ended
            let st2 := { st1 with queue := st1.queue.tail }
            match st2.queue.head? with
            | some j => startPlay calls t j st2
            | none => st2
          else st0
      | .timeout3 i => deliver st0 i .fire3s
      | .check1 i =>
          deliver st0 i
            (.fire1s (!st0.queue.isEmpty) (decide (2 ≤ st0.queue.length)))

/-- Iterate the event loop on the given fuel. -/
def runSimAux (calls : List SimCall) : Nat → SimState → SimState
  | 0, st => st
  | fuel + 1, st => runSimAux calls fuel (simStep calls st)

/-- Run the event loop from the given speak calls. -/
def runSim (calls : List SimCall) (fuel : Nat) : SimState :=
  runSimAux calls fuel
    { agenda := calls.enum.map fun p => (p.2.time, SimTask.call p.1)
      queue := []
      requests := calls.map fun _ => {}
      trace := []
      maxLive := 0 }

lemma speakStep_result_rejected (st : RequestState) (e : SpeakEvent) :
    (speakStep st e).result = some (Outcome.rejected SpeechError.SYNTHESIS_FAILED) ↔
      st.result = some (Outcome.rejected SpeechError.SYNTHESIS_FAILED) ∨
        (st.result = none ∧ RejectingAt st e) := by
  rcases st with ⟨hs, he, hc, r⟩
  cases e with
  | start =>
      simp [speakStep, RejectingAt]
  | ended =>
      rcases r with _ | o <;> simp [speakStep, RequestState.settle, RejectingAt]
  | error =>
      rcases r with _ | o <;> simp [speakStep, RequestState.settle, RejectingAt]
  | fire3s =>
      cases hs <;> cases he <;> cases hc <;> rcases r with _ | o <;>
        simp [speakStep, RequestState.settle, RejectingAt]
  | fire1s sp pe =>
      cases hs <;> cases he <;> cases sp <;> cases pe <;> rcases r with _ | o <;>
        simp [speakStep, RequestState.settle, RejectingAt]

lemma foldl_result_rejected (events : List SpeakEvent) (st : RequestState) :
    (events.foldl speakStep st).result =
        some (Outcome.rejected SpeechError.SYNTHESIS_FAILED) ↔
      st.result = some (Outcome.rejected SpeechError.SYNTHESIS_FAILED) ∨
        ∃ pre e post, events = pre ++ e :: post ∧
          (pre.foldl speakStep st).result = none ∧
          RejectingAt (pre.foldl speakStep st) e := by
  induction events generalizing st with
  | nil => simp
  | cons e es ih =>
      rw [List.foldl_cons, ih]
      constructor
      · rintro (h | ⟨pre, e', post, heq, hnone, hrej⟩)
        · rcases (speakStep_result_rejected st e).mp h with h' | ⟨hnone, hrej⟩
          · exact Or.inl h'
          · exact Or.inr ⟨[], e, es, rfl, hnone, hrej⟩
        · refine Or.inr ⟨e :: pre, e', post, by simp [heq], ?_, ?_⟩
          · simpa [List.foldl_cons] using hnone
          · simpa [List.foldl_cons] using hrej
      · rintro (h | ⟨pre, e', post, heq, hnone, hrej⟩)
        · exact Or.inl ((speakStep_result_rejected st e).mpr (Or.inl h))
        · rcases pre with _ | ⟨x, pre⟩
          · obtain ⟨rfl, rfl⟩ : e = e' ∧ es = post := by
              constructor <;> injection heq
            simp only [List.foldl_nil] at hnone hrej
            exact Or.inl ((speakStep_result_rejected st e).mpr (Or.inr ⟨hnone, hrej⟩))
          · obtain ⟨rfl, hes⟩ : e = x ∧ es = pre ++ e' :: post := by
              constructor <;> injection heq
            refine Or.inr ⟨pre, e', post, hes, ?_, ?_⟩
            · simpa [List.foldl_cons] using hnone
            · simpa [List.foldl_cons] using hrej

lemma speakStep_result_mono (st : RequestState) (e : SpeakEvent) :
    (speakStep st e).result = st.result ∨
      (speakStep st e).result = some Outcome.resolved ∨
      (speakStep st e).result = some (Outcome.rejected SpeechError.SYNTHESIS_FAILED) := by
  rcases st with ⟨hs, he, hc, r⟩
  cases e with
  | start => simp [speakStep]
  | ended =>
      rcases r with _ | o <;> simp [speakStep, RequestState.settle]
  | error =>
      rcases r with _ | o <;> simp [speakStep, RequestState.settle]
  | fire3s =>
      cases hs <;> cases he <;> cases hc <;> rcases r with _ | o <;>
        simp [speakStep, RequestState.settle]
  | fire1s sp pe =>
      cases hs <;> cases he <;> cases sp <;> cases pe <;> rcases r with _ | o <;>
        simp [speakStep, RequestState.settle]

lemma foldl_result_cases (events : List SpeakEvent) (st : RequestState)
    (h : st.result = none ∨ st.result = some Outcome.resolved ∨
      st.result = some (Outcome.rejected SpeechError.SYNTHESIS_FAILED)) :
    (events.foldl speakStep st).result = none ∨
      (events.foldl speakStep st).result = some Outcome.resolved ∨
      (events.foldl speakStep st).result =
        some (Outcome.rejected SpeechError.SYNTHESIS_FAILED) := by
  induction events generalizing st with
  | nil => simpa using h
  | cons e es ih =>
      rw [List.foldl_cons]
      refine ih (speakStep st e) ?_
      rcases speakStep_result_mono st e with hm | hm | hm
      · rw [hm]; exact h
      · exact Or.inr (Or.inl hm)
      · exact Or.inr (Or.inr hm)

/-- C3: the pending result returned by speak rejects with SynthesisFailed
exactly when, while the promise is still pending, one of the three failure
events occurs: the engine reports an error event, the 3-second watchdog
expires with no start (and no end) observed, or the 1-second fallback check
observes no start (and no end) with the engine neither speaking nor pending;
and every settled outcome is either a resolution or that uniform
SynthesisFailed rejection. -/
theorem speak_rejection_characterization (events : List SpeakEvent) :
    ((runSpeak events).result = some (Outcome.rejected SpeechError.SYNTHESIS_FAILED) ↔
      ∃ pre e post, events = pre ++ e :: post ∧ (runSpeak pre).result = none ∧
        RejectingAt (runSpeak pre) e) ∧
    ∀ o, (runSpeak events).result = some o →
      o = Outcome.resolved ∨ o = Outcome.rejected SpeechError.SYNTHESIS_FAILED := by
  constructor
  · simpa [runSpeak] using foldl_result_rejected events {}
  · intro o ho
    rcases foldl_result_cases events {} (Or.inl rfl) with h | h | h
    · rw [runSpeak] at ho; rw [ho] at h; exact absurd h (by simp)
    · rw [runSpeak] at ho; rw [ho] at h
      exact Or.inl (Option.some.inj h)
    · rw [runSpeak] at ho; rw [ho] at h
      exact Or.inr (Option.some.inj h)

/-- Witness for C3: an engine error event on a fresh request settles the
promise with the SynthesisFailed rejection. -/
theorem speak_rejection_characterization_witness :
    (runSpeak [SpeakEvent.error]).result =
      some (Outcome.rejected SpeechError.SYNTHESIS_FAILED) :=
  (speak_rejection_characterization [SpeakEvent.error]).1.mpr
    ⟨[], SpeakEvent.error, [], rfl, rfl, Or.inl rfl⟩

lemma find?_of_firstMatch (p : Voice → Bool) (l : List Voice) (d : Voice)
    (h : FirstMatch p l d) : l.find? p = some d := by
  obtain ⟨l₁, l₂, rfl, hd, hl₁⟩ := h
  induction l₁ with
  | nil => exact List.find?_cons_of_pos _ hd
  | cons x xs ih =>
      have hx : p x = false := hl₁ x (by simp)
      rw [List.cons_append, List.find?_cons_of_neg _ (by simp [hx])]
      exact ih fun y hy => hl₁ y (by simp [hy])

lemma isLocalEnglish_eq_false_of (v : Voice) (h : isEnglish v = false) :
    isLocalEnglish v = false := by
  rw [isEnglish] at h
  simp [isLocalEnglish, h]

/-- C5: optimal voice selection returns the first voice in enumeration order
that is local-service and English; when no such voice exists, the first
English voice in enumeration order; when no voice matches at all, none. -/
theorem selectOptimal_spec (voices : List Voice) :
    (∀ d, FirstMatch isLocalEnglish voices d → selectOptimalChoice voices = some d) ∧
    ((∀ x ∈ voices, isLocalEnglish x = false) →
      ∀ d, FirstMatch isEnglish voices d → selectOptimalChoice voices = some d) ∧
    ((∀ x ∈ voices, isEnglish x = false) → selectOptimalChoice voices = none) := by
  refine ⟨?_, ?_, ?_⟩
  · rintro d ⟨l₁, l₂, rfl, hd, hl₁⟩
    have hnil : l₁.filter isLocalEnglish = [] := by
      rw [List.filter_eq_nil_iff]
      intro a ha
      simp [hl₁ a ha]
    unfold selectOptimalChoice
    rw [List.filter_append, hnil, List.nil_append, List.filter_cons_of_pos hd]
  · rintro hno d ⟨l₁, l₂, heq, hd, hl₁⟩
    have hfil : voices.filter isLocalEnglish = [] := by
      rw [List.filter_eq_nil_iff]
      intro a ha
      simp [hno a ha]
    unfold selectOptimalChoice
    rw [hfil]
    exact find?_of_firstMatch _ _ _ ⟨l₁, l₂, heq, hd, hl₁⟩
  · intro hno
    have hfil : voices.filter isLocalEnglish = [] := by
      rw [List.filter_eq_nil_iff]
      intro a ha
      simp [isLocalEnglish_eq_false_of a (hno a ha)]
    have hfind : voices.find? isEnglish = none := by
      rw [List.find?_eq_none]
      intro a ha
      simp [hno a ha]
    unfold selectOptimalChoice
    rw [hfil, hfind]

/-- Witness for C5: in a catalog of a French local voice, a remote English
voice and a local English voice, selection picks the local English one even
though it enumerates last. -/
theorem selectOptimal_spec_witness :
    selectOptimalChoice
        [Voice.mk "voix" "fr-FR" true, Voice.mk "remote-en" "en-US" false,
          Voice.mk "local-en" "en-GB" true] =
      some (Voice.mk "local-en" "en-GB" true) :=
  (selectOptimal_spec _).1 _
    ⟨[Voice.mk "voix" "fr-FR" true, Voice.mk "remote-en" "en-US" false], [],
      rfl, by decide, by decide⟩

lemma selectOptimalChoice_mem (voices : List Voice)
    (hen : ∃ w ∈ voices, isEnglish w = true) :
    ∃ w, selectOptimalChoice voices = some w ∧ w ∈ voices := by
  unfold selectOptimalChoice
  cases hfil : voices.filter isLocalEnglish with
  | cons v rest =>
      refine ⟨v, rfl, ?_⟩
      have hv : v ∈ voices.filter isLocalEnglish := by
        rw [hfil]
        exact List.mem_cons_self _ _
      exact List.mem_of_mem_filter hv
  | nil =>
      cases hfind : voices.find? isEnglish with
      | some w => exact ⟨w, rfl, List.mem_of_find?_eq_some hfind⟩
      | none =>
          obtain ⟨w, hw, hwe⟩ := hen
          have := List.find?_eq_none.mp hfind w hw
          simp [hwe] at this

/-- Counterexample to C2: with a catalog holding only a French voice, updating
to a voice id absent from the catalog keeps the invalid id stored — the
fallback assigns nothing when the catalog has no English voice. -/
theorem updateSettings_invalid_voice_counterexample :
    (updateSettings [Voice.mk "voix" "fr-FR" true] defaultSettings
        { voice := some "does-not-exist" }).voice = "does-not-exist" ∧
      ∀ w ∈ [Voice.mk "voix" "fr-FR" true], w.name ≠ "does-not-exist" := by
  decide

/-- C2 amended: when the invalid id is non-empty and the catalog holds at
least one English voice, updating to a voice id absent from the catalog
stores the optimal selection, a name of a catalog entry differing from the
invalid id. -/
theorem updateSettings_invalid_voice_fallback (voices : List Voice)
    (s : SpeechSettings) (v : String) (hv : v ≠ "")
    (habs : ∀ w ∈ voices, w.name ≠ v)
    (hen : ∃ w ∈ voices, isEnglish w = true) :
    ∃ w, selectOptimalChoice voices = some w ∧ w ∈ voices ∧
      (updateSettings voices s { voice := some v }).voice = w.name ∧
      w.name ≠ v := by
  obtain ⟨w, hcw, hmem⟩ := selectOptimalChoice_mem voices hen
  refine ⟨w, hcw, hmem, ?_, habs w hmem⟩
  have hany : voices.any (fun x => x.name == v) = false := by
    rw [List.any_eq_false]
    intro x hx
    simpa using habs x hx
  simp [updateSettings, mergeSettings, hany, hv, selectOptimalVoice, hcw]

/-- Witness for C2 amended: with a single English catalog voice, the invalid
id is replaced by that voice's name. -/
theorem updateSettings_invalid_voice_fallback_witness :
    (updateSettings [Voice.mk "british" "en-GB" false] defaultSettings
        { voice := some "does-not-exist" }).voice = "british" := by
  obtain ⟨w, hcw, _, hvoice, _⟩ :=
    updateSettings_invalid_voice_fallback [Voice.mk "british" "en-GB" false]
      defaultSettings "does-not-exist" (by decide) (by decide)
      ⟨Voice.mk "british" "en-GB" false, by simp, by decide⟩
  have hw : w = Voice.mk "british" "en-GB" false := by
    have hval : selectOptimalChoice [Voice.mk "british" "en-GB" false] =
        some (Voice.mk "british" "en-GB" false) := by decide
    rw [hval] at hcw
    exact (Option.some.inj hcw).symm
  rw [hvoice, hw]

/-- C7: settings fields absent from the supplied partial keep their prior
values; in particular a rate-only partial changes exactly the rate. -/
theorem updateSettings_frame (voices : List Voice) (s : SpeechSettings)
    (r : Rat) (p : PartialSpeechSettings) :
    updateSettings voices s { rate := some r } = { s with rate := r } ∧
    (p.rate = none → (updateSettings voices s p).rate = s.rate) ∧
    (p.pitch = none → (updateSettings voices s p).pitch = s.pitch) ∧
    (p.volume = none → (updateSettings voices s p).volume = s.volume) ∧
    (p.voice = none → (updateSettings voices s p).voice = s.voice) := by
  refine ⟨rfl, ?_, ?_, ?_, ?_⟩
  · intro h
    cases hpv : p.voice <;>
      simp only [updateSettings, mergeSettings, hpv, h] <;>
        first
          | rfl
          | (split <;> rfl)
  · intro h
    cases hpv : p.voice <;>
      simp only [updateSettings, mergeSettings, hpv, h] <;>
        first
          | rfl
          | (split <;> rfl)
  · intro h
    cases hpv : p.voice <;>
      simp only [updateSettings, mergeSettings, hpv, h] <;>
        first
          | rfl
          | (split <;> rfl)
  · intro h
    simp [updateSettings, mergeSettings, h]

/-- Witness for C7: updating only the rate on the default settings keeps the
default pitch and voice. -/
theorem updateSettings_frame_witness :
    (updateSettings [] defaultSettings { rate := some 2 }).pitch =
        defaultSettings.pitch ∧
      (updateSettings [] defaultSettings { rate := some 2 }).voice =
        defaultSettings.voice :=
  ⟨(updateSettings_frame [] defaultSettings 2 { rate := some 2 }).2.2.1 rfl,
    (updateSettings_frame [] defaultSettings 2 { rate := some 2 }).2.2.2.2 rfl⟩

/-- C10: supplying the empty string as the voice bypasses the
catalog-existence check and the fallback entirely: the empty string is stored
verbatim, whatever the catalog. -/
theorem updateSettings_empty_voice_bypass (voices : List Voice)
    (s : SpeechSettings) :
    updateSettings voices s { voice := some "" } = { s with voice := "" } := rfl

/-- C9: under the platform invariant that a paused engine still reports
`speaking`, `stop()` always leaves the controller Idle, issues at most one
engine call and only ever a cancellation, is a no-op on an Idle non-pending
engine, and a second `stop()` changes nothing and issues no further call, so
`stop(); stop()` is observationally a single `stop()`. -/
theorem stop_idempotent (e : EngineFlags)
    (hpp : e.paused = true → e.speaking = true) :
    (stopRun e).1.isIdle ∧
    (∀ c ∈ (stopRun e).2, c = EngineCall.cancel) ∧
    (stopRun e).2.length ≤ 1 ∧
    (e.isIdle ∧ e.pending = false → stopRun e = (e, [])) ∧
    stopRun (stopRun e).1 = ((stopRun e).1, []) := by
  rcases e with ⟨sp, pe, pa⟩
  cases sp <;> cases pe <;> cases pa <;>
    simp_all [stopRun, EngineFlags.cancelAll, EngineFlags.isIdle]

/-- Witness for C9: stopping a speaking engine leaves it Idle and a second
stop is a no-op. -/
theorem stop_idempotent_witness :
    (stopRun ⟨true, false, false⟩).1.isIdle ∧
      stopRun (stopRun ⟨true, false, false⟩).1 =
        ((stopRun ⟨true, false, false⟩).1, []) :=
  ⟨(stop_idempotent ⟨true, false, false⟩ (by decide)).1,
    (stop_idempotent ⟨true, false, false⟩ (by decide)).2.2.2.2⟩

/-- C4: for every string whose trimmed form is empty, speak resolves
immediately, issues no engine call (no cancel, no submit) and leaves the
engine state unchanged. -/
theorem speak_empty_noop (e : EngineFlags) (text : String)
    (h : trimmedEmpty text = true) :
    speakRun e text = ([], true) ∧ applyCalls e (speakRun e text).1 = e := by
  simp [speakRun, h, applyCalls]

/-- Witness for C4: an all-whitespace text on a speaking engine. -/
theorem speak_empty_noop_witness :
    speakRun ⟨true, false, false⟩ "   " = ([], true) ∧
      applyCalls ⟨true, false, false⟩ (speakRun ⟨true, false, false⟩ "   ").1 =
        ⟨true, false, false⟩ :=
  speak_empty_noop ⟨true, false, false⟩ "   " (by decide)

lemma foldl_loadVoices_empty (loads : List (List Voice))
    (h : ∀ l ∈ loads, l = []) :
    loads.foldl loadVoicesStep ([], "") = ([], "") := by
  induction loads with
  | nil => rfl
  | cons l ls ih =>
      have hl : l = [] := h l (by simp)
      rw [List.foldl_cons, hl]
      exact ih fun x hx => h x (by simp [hx])

/-- C8: when every voice snapshot up to the 1-second timeout is empty, the
NoVoicesAvailable condition is reported through the error callback (the model
is a total function — nothing is thrown), the catalog stays empty, the
settings voice stays unset, and a subsequent speak still submits a request
whose utterance carries no voice; its outcome is then settled purely by the
engine events (the `runSpeak` characterization). -/
theorem no_voices_reported_and_speak_proceeds (loads : List (List Voice))
    (text : String) (hloads : ∀ l ∈ loads, l = [])
    (htext : trimmedEmpty text = false) :
    (initializeVoices "" loads).noVoicesReported = true ∧
    (initializeVoices "" loads).voices = [] ∧
    (initializeVoices "" loads).settingsVoice = "" ∧
    (buildUtterance
        { defaultSettings with voice := (initializeVoices "" loads).settingsVoice }
        (initializeVoices "" loads).voices text).voice = none ∧
    speakRun ⟨false, false, false⟩ text = ([EngineCall.submit text], false) := by
  have h1 : initializeVoices "" loads = ⟨[], "", true⟩ := by
    unfold initializeVoices
    rw [foldl_loadVoices_empty loads hloads]
    rfl
  rw [h1]
  refine ⟨rfl, rfl, rfl, rfl, ?_⟩
  simp [speakRun, htext, stopRun]

/-- Witness for C8: two empty snapshots, then speaking a word. -/
theorem no_voices_reported_and_speak_proceeds_witness :
    (initializeVoices "" [[], []]).noVoicesReported = true ∧
      (initializeVoices "" [[], []]).voices = [] ∧
      (initializeVoices "" [[], []]).settingsVoice = "" ∧
      (buildUtterance
          { defaultSettings with voice := (initializeVoices "" [[], []]).settingsVoice }
          (initializeVoices "" [[], []]).voices "apple").voice = none ∧
      speakRun ⟨false, false, false⟩ "apple" =
        ([EngineCall.submit "apple"], false) :=
  no_voices_reported_and_speak_proceeds [[], []] "apple" (by decide) (by decide)

lemma attemptSpeak_shape (text : String) (success : Nat → Bool) :
    ∀ left k,
      (attemptSpeak text success k left).submissions.length ≤ left + 1 ∧
      (attemptSpeak text success k left).submissions =
        List.replicate (attemptSpeak text success k left).submissions.length
          text := by
  intro left
  induction left with
  | zero =>
      intro k
      rcases hsk : success k with _ | _ <;> simp [attemptSpeak, hsk]
  | succ n ih =>
      intro k
      rcases hsk : success k with _ | _
      · obtain ⟨hlen, hrep⟩ := ih (k + 1)
        constructor
        · simpa [attemptSpeak, hsk] using Nat.succ_le_succ hlen
        · simp only [attemptSpeak, hsk, Bool.false_eq_true, if_false]
          simp [List.replicate_succ, hrep.symm]
      · simp [attemptSpeak, hsk]

lemma attemptSpeak_all_fail (text : String) :
    ∀ left k,
      attemptSpeak text (fun _ => false) k left =
        ⟨List.replicate (left + 1) text, false, List.replicate left 200⟩ := by
  intro left
  induction left with
  | zero => intro k; simp [attemptSpeak]
  | succ n ih =>
      intro k
      simp [attemptSpeak, ih (k + 1), List.replicate_succ]

/-- C6: the retry wrapper retries the same speak text after a fixed 200ms
delay, up to maxRetries additional attempts.  With two rejections and then a
success under maxRetries = 2, the engine receives exactly three submissions
(of the same text) and the handler reports overall success after two 200ms
waits; in general the engine receives at most maxRetries + 1 submissions,
all of the same text, and when every attempt fails the handler still returns
(failure carried passively) after maxRetries + 1 submissions. -/
theorem retry_wrapper_spec :
    (∀ text, handleSpeak text (fun k => k == 2) 2 =
      ⟨[text, text, text], true, [200, 200]⟩) ∧
    (∀ text success maxRetries,
      (handleSpeak text success maxRetries).submissions.length ≤
          maxRetries + 1 ∧
        (handleSpeak text success maxRetries).submissions =
          List.replicate
            (handleSpeak text success maxRetries).submissions.length text) ∧
    (∀ text maxRetries,
      handleSpeak text (fun _ => false) maxRetries =
        ⟨List.replicate (maxRetries + 1) text, false,
          List.replicate maxRetries 200⟩) := by
  refine ⟨fun text => rfl, ?_, ?_⟩
  · intro text success maxRetries
    exact attemptSpeak_shape text success maxRetries 0
  · intro text maxRetries
    exact attemptSpeak_all_fail text maxRetries 0

/-- Counterexample to C1: speak of a (duration 500ms) at time 0 followed
immediately (1ms later, during the 50ms+10ms pre-submit delay of the first
call) by speak of b.  The second call's stop() finds the engine neither
speaking nor pending, so no cancel is ever delivered; both utterances are
submitted, two requests are simultaneously live at the engine, and both
promises resolve — two terminal outcomes, not one outcome for b. -/
theorem speak_supersession_counterexample :
    (runSim [⟨0, "a", 500⟩, ⟨1, "b", 300⟩] 64).trace =
        [EngineCall.submit "a", EngineCall.submit "b"] ∧
      (runSim [⟨0, "a", 500⟩, ⟨1, "b", 300⟩] 64).maxLive = 2 ∧
      ((runSim [⟨0, "a", 500⟩, ⟨1, "b", 300⟩] 64).requests.getD 0 {}).result =
        some Outcome.resolved ∧
      ((runSim [⟨0, "a", 500⟩, ⟨1, "b", 300⟩] 64).requests.getD 1 {}).result =
        some Outcome.resolved := by
  decide

set_option maxRecDepth 8000 in
set_option maxHeartbeats 2000000 in
/-- C1 amended: when the second speak call is issued `del` ms after the
first, anywhere after the first utterance's submission (the 60ms pre-submit
delay has elapsed) and while it is live at the engine, the controller
delivers a cancel before the second submit, at most one request is ever live
at the engine, the superseded promise never settles, and the single terminal
outcome is the resolution of the second text. -/
theorem speak_supersession_amended :
    ∀ del, del < 560 → 61 ≤ del →
      (runSim [⟨0, "a", 500⟩, ⟨del, "b", 300⟩] 64).trace =
          [EngineCall.submit "a", EngineCall.cancel, EngineCall.submit "b"] ∧
        (runSim [⟨0, "a", 500⟩, ⟨del, "b", 300⟩] 64).maxLive ≤ 1 ∧
        ((runSim [⟨0, "a", 500⟩, ⟨del, "b", 300⟩] 64).requests.getD 0 {}).result =
          none ∧
        ((runSim [⟨0, "a", 500⟩, ⟨del, "b", 300⟩] 64).requests.getD 1 {}).result =
          some Outcome.resolved := by
  decide

/-- Witness for C1 amended: the second call 100ms after the first. -/
theorem speak_supersession_amended_witness :
    (runSim [⟨0, "a", 500⟩, ⟨100, "b", 300⟩] 64).trace =
      [EngineCall.submit "a", EngineCall.cancel, EngineCall.submit "b"] :=
  (speak_supersession_amended 100 (by decide) (by decide)).1

end Speech
